import Mathlib

set_option linter.unusedVariables false

/-!
Verification of the bayesflow node abstraction (`ConditionalDistribution`) and
its concrete node types (`NoisyGaussianMatrixProduct`, `NoisyCumulativeSum`,
`NoisyLatentFeatures`, `GMMClustering`) against the repository sources
`bayesflow/models/__init__.py` and `bayesflow/models/matrix_decompositions.py`.

Each Python function relevant to the claims is shallowly embedded as a Lean
definition; exceptions (`raise`, failed `assert`, attribute and unpacking
errors) are modelled with `Except String`.
-/

/-- Output shapes are tuples of dimension sizes. -/
abbrev Shape := List Nat

/-- `NoisyGaussianMatrixProduct._compute_shape`: unpacks `A_shape` as `(N, K)`
and `B_shape` as `(M, K2)`, asserts `K == K2`, returns `(N, M)`.  A tuple of
the wrong arity fails to unpack; a failed assert raises. -/
def ngmp_compute_shape (A_shape B_shape std_shape : Shape) : Except String Shape :=
  match A_shape, B_shape with
  | [N, K], [M, K2] =>
    if K = K2 then Except.ok [N, M] else Except.error "AssertionError"
  | _, _ => Except.error "ValueError: cannot unpack shape"

/-- `NoisyCumulativeSum._compute_shape`: returns `A_shape` unchanged. -/
def ncs_compute_shape (A_shape std_shape : Shape) : Except String Shape :=
  Except.ok A_shape

/-- `NoisyLatentFeatures._compute_shape`: unpacks `B_shape` as `(N, K)` and
`G_shape` as `(K2, M)`, asserts `K == K2`, returns `(N, M)`. -/
def nlf_compute_shape (B_shape G_shape std_shape : Shape) : Except String Shape :=
  match B_shape, G_shape with
  | [N, K], [K2, M] =>
    if K = K2 then Except.ok [N, M] else Except.error "AssertionError"
  | _, _ => Except.error "ValueError: cannot unpack shape"

/-- `GMMClustering._compute_shape`: unconditionally raises. -/
def gmm_compute_shape (weights_shape centers_shape std_shape : Shape) : Except String Shape :=
  Except.error "cannot infer shape for GMMClustering, must specify number of cluster draws"

/-- An approximate posterior ("Q distribution") as seen by `attach_q`:
an object identity and an `output_shape`. -/
structure QDist where
  qid : Nat
  shape : Shape
deriving DecidableEq, Repr

/-- The posterior-related state of a `ConditionalDistribution` node:
its `output_shape` and the `_q_distribution` slot (initially `none`). -/
structure NodeQ where
  output_shape : Shape
  q_slot : Option QDist
deriving DecidableEq, Repr

/-- `ConditionalDistribution.attach_q`: raises if a posterior is already
attached; then asserts that the new posterior's `output_shape` equals the
node's; only then stores it.  The second component is the state of the node
after the call (unchanged when an exception is raised, since the assignment
is the final statement). -/
def attach_q (s : NodeQ) (q : QDist) : Except String Unit × NodeQ :=
  if s.q_slot.isSome then
    (Except.error "trying to attach Q distribution, but another distribution is already attached", s)
  else if s.output_shape = q.shape then
    (Except.ok (), { s with q_slot := some q })
  else
    (Except.error "AssertionError", s)

/-- `ConditionalDistribution.q_distribution`: if no posterior is attached,
invokes `default_q` (which may raise) and attaches its result; returns the
attached posterior.  The `Bool` records whether `default_q` was invoked. -/
def q_distribution (s : NodeQ) (default_q : Except String QDist) :
    Except String (QDist × NodeQ × Bool) :=
  match s.q_slot with
  | some q => Except.ok (q, s, false)
  | none =>
    match default_q with
    | Except.error e => Except.error e
    | Except.ok dq =>
      match attach_q s dq with
      | (Except.ok _, s2) =>
        match s2.q_slot with
        | some q => Except.ok (q, s2, true)
        | none => Except.error "unreachable"
      | (Except.error e, _) => Except.error e

/-- C6: `NoisyGaussianMatrixProduct._compute_shape` maps `A:(5,3)`, `B:(4,3)`
to `(5,4)` and fails on `A:(5,3)`, `B:(4,2)`; `NoisyCumulativeSum._compute_shape`
maps `A:(6,2)` to `(6,2)`; in general the product shape is `(N,M)` for
`A:(N,K)`, `B:(M,K)` exactly when the inner dimensions agree, and the
cumulative-sum output shape equals `A`'s shape. -/
theorem C6_shape_inference :
    ngmp_compute_shape [5, 3] [4, 3] [] = Except.ok [5, 4] ∧
    ngmp_compute_shape [5, 3] [4, 2] [] = Except.error "AssertionError" ∧
    ncs_compute_shape [6, 2] [] = Except.ok [6, 2] ∧
    (∀ N K M K2 s, K = K2 → ngmp_compute_shape [N, K] [M, K2] s = Except.ok [N, M]) ∧
    (∀ N K M K2 s, K ≠ K2 →
      ngmp_compute_shape [N, K] [M, K2] s = Except.error "AssertionError") ∧
    (∀ A s, ncs_compute_shape A s = Except.ok A) := by
  refine ⟨rfl, rfl, rfl, ?_, ?_, ?_⟩
  · intro N K M K2 s h
    simp [ngmp_compute_shape, h]
  · intro N K M K2 s h
    simp [ngmp_compute_shape, h]
  · intro A s
    rfl

/-- Witness for C6 at a concrete input with the hypotheses discharged. -/
theorem C6_shape_inference_witness :
    ngmp_compute_shape [7, 2] [9, 2] [1] = Except.ok [7, 9] :=
  C6_shape_inference.2.2.2.1 7 2 9 2 [1] rfl

/-- C5: `attach_q` fails when a posterior is already attached, fails on an
`output_shape` mismatch, and after one successful attach every subsequent
`q_distribution()` call returns that exact posterior without invoking
`default_q` (the returned flag is `false` for every possible `default_q`). -/
theorem C5_attach_once :
    (∀ (s : NodeQ) (q : QDist), s.q_slot.isSome →
      attach_q s q =
        (Except.error "trying to attach Q distribution, but another distribution is already attached", s)) ∧
    (∀ (s : NodeQ) (q : QDist), s.q_slot = none → s.output_shape ≠ q.shape →
      attach_q s q = (Except.error "AssertionError", s)) ∧
    (∀ (s : NodeQ) (q : QDist), s.q_slot = none → s.output_shape = q.shape →
      (attach_q s q).1 = Except.ok () ∧
      (attach_q s q).2.q_slot = some q ∧
      ∀ default_q, q_distribution (attach_q s q).2 default_q =
        Except.ok (q, (attach_q s q).2, false)) := by
  refine ⟨?_, ?_, ?_⟩
  · intro s q h
    simp [attach_q, h]
  · intro s q h1 h2
    simp [attach_q, h1, h2]
  · intro s q h1 h2
    refine ⟨?_, ?_, ?_⟩
    · simp [attach_q, h1, h2]
    · simp [attach_q, h1, h2]
    · intro dq
      simp [attach_q, h1, h2, q_distribution]

/-- Witness for C5: a successful attach on an empty matching-shape slot,
followed by `q_distribution` returning that exact posterior with the
default never invoked, at concrete values. -/
theorem C5_attach_once_witness :
    q_distribution (attach_q ⟨[2], none⟩ ⟨7, [2]⟩).2 (Except.error "no default") =
      Except.ok (⟨7, [2]⟩, (attach_q ⟨[2], none⟩ ⟨7, [2]⟩).2, false) :=
  (C5_attach_once.2.2 ⟨[2], none⟩ ⟨7, [2]⟩ rfl rfl).2.2 (Except.error "no default")

/-- C10: whenever `attach_q` fails (already attached, or shape mismatch), the
posterior slot is left exactly as it was, and a later `q_distribution()` call
behaves as if the failed attach had never happened. -/
theorem C10_attach_q_atomic (s : NodeQ) (q : QDist) (e : String)
    (h : (attach_q s q).1 = Except.error e) :
    (attach_q s q).2 = s ∧
    ∀ default_q, q_distribution (attach_q s q).2 default_q = q_distribution s default_q := by
  have hs : (attach_q s q).2 = s := by
    by_cases h1 : s.q_slot.isSome
    · simp [attach_q, h1]
    · by_cases h2 : s.output_shape = q.shape
      · exfalso
        simp [attach_q, h1, h2] at h
      · simp [attach_q, h1, h2]
  exact ⟨hs, fun dq => by rw [hs]⟩

/-- Witness for C10 at a concrete failing attach (slot already occupied). -/
theorem C10_attach_q_atomic_witness :
    (attach_q ⟨[2], some ⟨1, [2]⟩⟩ ⟨5, [2]⟩).2 = ⟨[2], some ⟨1, [2]⟩⟩ :=
  (C10_attach_q_atomic ⟨[2], some ⟨1, [2]⟩⟩ ⟨5, [2]⟩
    "trying to attach Q distribution, but another distribution is already attached" rfl).1

/-- `np.sum(np.log(np.arange(1, K+1)))`, the `log K!` permutation correction
added by the `symmetry_correction_hack` branches of `elbo_term`. -/
noncomputable def permutation_correction (K : ℕ) : ℝ :=
  ∑ i in Finset.range K, Real.log ((i : ℝ) + 1)

/-- `self.K * np.log(2)`, the sign-flip correction of
`NoisyGaussianMatrixProduct.elbo_term`. -/
noncomputable def signflip_correction (K : ℕ) : ℝ :=
  (K : ℝ) * Real.log 2

/-- `ConditionalDistribution.elbo_term`: given the node's expected log
probability and entropy (symbolic scalars), multiplies both by
`minibatch_scale_factor` when it is set. -/
noncomputable def elbo_term (scale : Option ℝ) (elp ent : ℝ) : ℝ × ℝ :=
  match scale with
  | none => (elp, ent)
  | some s => (elp * s, ent * s)

/-- `NoisyGaussianMatrixProduct.elbo_term`: calls the base `elbo_term`, then,
when `symmetry_correction_hack` is set, adds `log K! + K log 2` to the
expected log probability (after the minibatch scaling). -/
noncomputable def ngmp_elbo_term (scale : Option ℝ) (hack : Bool) (elp ent : ℝ) (K : ℕ) : ℝ × ℝ :=
  let base := elbo_term scale elp ent
  if hack then (base.1 + permutation_correction K + signflip_correction K, base.2) else base

/-- `NoisyLatentFeatures.elbo_term`: adds only the `log K!` permutation
correction when `symmetry_correction_hack` is set. -/
noncomputable def nlf_elbo_term (scale : Option ℝ) (hack : Bool) (elp ent : ℝ) (K : ℕ) : ℝ × ℝ :=
  let base := elbo_term scale elp ent
  if hack then (base.1 + permutation_correction K, base.2) else base

/-- `GMMClustering.elbo_term`: adds only the `log n_clusters!` permutation
correction when `symmetry_correction_hack` is set. -/
noncomputable def gmm_elbo_term (scale : Option ℝ) (hack : Bool) (elp ent : ℝ) (n_clusters : ℕ) : ℝ × ℝ :=
  let base := elbo_term scale elp ent
  if hack then (base.1 + permutation_correction n_clusters, base.2) else base

/-- C8: for `K = 4` the permutation correction equals `ln 24 = ln 4!` and the
sign-flip correction equals `4 ln 2`; for `n_clusters = 3` the `GMMClustering`
permutation correction equals `ln 6`; the entropy component of `elbo_term` is
unchanged by the symmetry corrections. -/
theorem C8_symmetry_constants :
    permutation_correction 4 = Real.log 24 ∧
    signflip_correction 4 = 4 * Real.log 2 ∧
    permutation_correction 3 = Real.log 6 ∧
    (∀ scale elp ent K,
      (ngmp_elbo_term scale true elp ent K).2 = (ngmp_elbo_term scale false elp ent K).2) ∧
    (∀ scale elp ent n,
      (gmm_elbo_term scale true elp ent n).2 = (gmm_elbo_term scale false elp ent n).2) := by
  refine ⟨?_, ?_, ?_, ?_, ?_⟩
  · have h24 : (24 : ℝ) = 2 * (3 * 4) := by norm_num
    rw [h24, Real.log_mul (by norm_num) (by norm_num), Real.log_mul (by norm_num) (by norm_num)]
    simp [permutation_correction, Finset.sum_range_succ]
    norm_num [Real.log_one]
    try ring
  · norm_num [signflip_correction]
  · have h6 : (6 : ℝ) = 2 * 3 := by norm_num
    rw [h6, Real.log_mul (by norm_num) (by norm_num)]
    simp [permutation_correction, Finset.sum_range_succ]
    norm_num [Real.log_one]
    try ring
  · intro scale elp ent K
    simp [ngmp_elbo_term]
  · intro scale elp ent n
    simp [gmm_elbo_term]

/-- C1 counterexample: for a `NoisyGaussianMatrixProduct` node with `K = 1`,
base expected log probability `0` and entropy `0`, setting
`minibatch_scale_factor = 10` does not multiply the first `elbo_term`
component by `10`: the symmetry correction is added after scaling, so the
scaled value is `log 2` while ten times the unscaled value is `10 log 2`. -/
theorem C1_counterexample :
    ¬ (ngmp_elbo_term (some 10) true 0 0 1).1 = 10 * (ngmp_elbo_term none true 0 0 1).1 := by
  intro h
  simp [ngmp_elbo_term, elbo_term, permutation_correction, signflip_correction,
    Finset.sum_range_succ, Real.log_one] at h
  nlinarith [Real.log_pos (show (1 : ℝ) < 2 by norm_num)]

/-- C1 amended: the base `ConditionalDistribution.elbo_term` multiplies both
components by the minibatch scale factor, and so do the overriding node types
when `symmetry_correction_hack = false`; with the hack enabled the symmetry
corrections are added after the scaling, so the expected-logp component equals
`s * (base expected_logp) + correction` (not `s` times the unscaled node's
component) while the entropy component still scales by `s`. -/
theorem C1_minibatch_scaling (s elp ent : ℝ) (K : ℕ) :
    elbo_term (some s) elp ent =
      ((elbo_term none elp ent).1 * s, (elbo_term none elp ent).2 * s) ∧
    ngmp_elbo_term (some s) false elp ent K =
      ((ngmp_elbo_term none false elp ent K).1 * s,
       (ngmp_elbo_term none false elp ent K).2 * s) ∧
    ngmp_elbo_term (some s) true elp ent K =
      (elp * s + permutation_correction K + signflip_correction K, ent * s) ∧
    nlf_elbo_term (some s) true elp ent K =
      (elp * s + permutation_correction K, ent * s) ∧
    gmm_elbo_term (some s) true elp ent K =
      (elp * s + permutation_correction K, ent * s) :=
  ⟨rfl, rfl, rfl, rfl, rfl⟩

/-- A `ConditionalDistribution` node as seen by `sample`: the hash salt of its
name, its `_sample` implementation (a deterministic function of the parents'
sampled values and the node-local seed set by `np.random.seed`), the one-slot
cache `_sampled_value_seed` / `_sampled_value` (the cached value is `0` before
any sample), and its `input_nodes`. -/
inductive CDNode : Type where
  | mk (salt : Nat) (f : List Int → Nat → Int) (marker : Option Nat) (cached : Int)
      (children : List CDNode)

/-- The `_sampled_value_seed` cache marker. -/
def CDNode.marker : CDNode → Option Nat
  | .mk _ _ m _ _ => m

/-- The `_sampled_value` cache slot. -/
def CDNode.cachedVal : CDNode → Int
  | .mk _ _ _ c _ => c

/-- The node's `_sample` implementation. -/
def CDNode.sfun : CDNode → (List Int → Nat → Int)
  | .mk _ f _ _ _ => f

/-- The hash salt of the node's name. -/
def CDNode.saltOf : CDNode → Nat
  | .mk s _ _ _ _ => s

/-- The node's `input_nodes`. -/
def CDNode.children : CDNode → List CDNode
  | .mk _ _ _ _ cs => cs

mutual
/-- `ConditionalDistribution.sample`: if `seed` equals `_sampled_value_seed`,
return the cached value unchanged; otherwise sample every parent with the same
seed, derive the local seed `(seed + salt) % 2^32`, run `_sample`, and cache
seed and value.  Returns the value together with the updated node. -/
def sample (t : CDNode) (seed : Nat) : Int × CDNode :=
  match t with
  | .mk salt f marker cached children =>
    if marker = some seed then
      (cached, .mk salt f marker cached children)
    else
      let rs := sampleList children seed
      let v := f rs.1 ((seed + salt) % 4294967296)
      (v, .mk salt f (some seed) v rs.2)

/-- Samples each parent in turn, collecting values and updated nodes. -/
def sampleList (ts : List CDNode) (seed : Nat) : List Int × List CDNode :=
  match ts with
  | [] => ([], [])
  | t :: rest =>
    let r := sample t seed
    let rr := sampleList rest seed
    (r.1 :: rr.1, r.2 :: rr.2)
end

/-- C3: sampling is cached per seed.  If the cached seed equals `seed`, the
cached value is returned and the node is unchanged (no recomputation, no
re-randomization); after any call the cache marker equals the seed just used
and the cache holds the returned value, so an immediately repeated call with
the same seed returns the identical value and state; and when the seed differs
from the cached one the value is recomputed by `_sample` from the freshly
sampled parents and the salted local seed. -/
theorem C3_sample_deterministic (t : CDNode) (s : Nat) :
    (t.marker = some s → sample t s = (t.cachedVal, t)) ∧
    (sample t s).2.marker = some s ∧
    (sample t s).2.cachedVal = (sample t s).1 ∧
    sample (sample t s).2 s = sample t s ∧
    (t.marker ≠ some s →
      (sample t s).1 = t.sfun (sampleList t.children s).1 ((s + t.saltOf) % 4294967296)) := by
  obtain ⟨salt, f, marker, cached, children⟩ := t
  by_cases h : marker = some s
  · refine ⟨fun _ => ?_, ?_, ?_, ?_, fun hn => absurd h hn⟩
    · simp [sample, h, CDNode.marker, CDNode.cachedVal]
    · simp [sample, h, CDNode.marker]
    · simp [sample, h, CDNode.cachedVal]
    · simp [sample, h]
  · refine ⟨fun hm => absurd hm (by simpa [CDNode.marker] using h), ?_, ?_, ?_, fun _ => ?_⟩
    · simp [sample, h, CDNode.marker]
    · simp [sample, h, CDNode.cachedVal]
    · conv_lhs => rw [sample]
      simp [sample, h, CDNode.marker]
    · simp [sample, h, CDNode.sfun, CDNode.children, CDNode.saltOf]

/-- Witness for C3: a concrete two-node chain whose root cache holds seed `3`
returns the cached value `7` without recomputation. -/
theorem C3_sample_deterministic_witness :
    sample (.mk 1 (fun xs n => xs.sum + n) (some 3) 7
      [.mk 2 (fun _ n => n) none 0 []]) 3 =
    (7, .mk 1 (fun xs n => xs.sum + n) (some 3) 7
      [.mk 2 (fun _ n => n) none 0 []]) :=
  (C3_sample_deterministic _ 3).1 rfl

/-- A constructed node as recorded in the object graph: indices of its
`input_nodes` values (all constructed earlier) and its stored `ancestors`
list.  Node identity is the position in the construction order. -/
structure NodeRec where
  parents : List Nat
  anc : List Nat
deriving DecidableEq, Repr

/-- The `ancestors` list stored at node `p` (empty for an absent index). -/
def ancList (g : List NodeRec) (p : Nat) : List Nat :=
  match g[p]? with
  | some r => r.anc
  | none => []

/-- The `input_nodes` indices of node `i`. -/
def parentsOf (g : List NodeRec) (i : Nat) : List Nat :=
  match g[i]? with
  | some r => r.parents
  | none => []

/-- `ConditionalDistribution.__init__` ancestor computation: the new node's
`ancestors` is `[self] + [ancestor for node in input_nodes for ancestor in
node.ancestors]`, appended to the existing graph; earlier records are
untouched. -/
def addNode (g : List NodeRec) (ps : List Nat) : List NodeRec :=
  g ++ [⟨ps, g.length :: ps.flatMap (ancList g)⟩]

/-- Graphs reachable by repeated construction, each new node wired only to
already-constructed parents. -/
inductive Built : List NodeRec → Prop where
  | nil : Built []
  | add (g : List NodeRec) (ps : List Nat) : Built g → (∀ p ∈ ps, p < g.length) →
      Built (addNode g ps)

/-- The stored `ancestors` of node `i`, as a set. -/
def ancSet (g : List NodeRec) (i : Nat) : Finset Nat := (ancList g i).toFinset

theorem ancList_addNode_lt (g : List NodeRec) (ps : List Nat) (i : Nat) (h : i < g.length) :
    ancList (addNode g ps) i = ancList g i := by
  unfold ancList addNode
  rw [List.getElem?_append_left h]

theorem parentsOf_addNode_lt (g : List NodeRec) (ps : List Nat) (i : Nat) (h : i < g.length) :
    parentsOf (addNode g ps) i = parentsOf g i := by
  unfold parentsOf addNode
  rw [List.getElem?_append_left h]

theorem ancList_addNode_self (g : List NodeRec) (ps : List Nat) :
    ancList (addNode g ps) g.length = g.length :: ps.flatMap (ancList g) := by
  unfold ancList addNode
  rw [List.getElem?_concat_length]
  rfl

theorem parentsOf_addNode_self (g : List NodeRec) (ps : List Nat) :
    parentsOf (addNode g ps) g.length = ps := by
  unfold parentsOf addNode
  rw [List.getElem?_concat_length]

theorem ancSet_addNode_lt (g : List NodeRec) (ps : List Nat) (i : Nat) (h : i < g.length) :
    ancSet (addNode g ps) i = ancSet g i := by
  unfold ancSet
  rw [ancList_addNode_lt g ps i h]

theorem toFinset_flatMap_eq (f : Nat → List Nat) (ps : List Nat) :
    (ps.flatMap f).toFinset = ps.toFinset.biUnion fun p => (f p).toFinset := by
  induction ps with
  | nil => simp
  | cons p rest ih => simp [List.flatMap_cons, ih]

theorem built_parents_lt {g : List NodeRec} (h : Built g) :
    ∀ i, ∀ p ∈ parentsOf g i, p < g.length := by
  induction h with
  | nil =>
    intro i p hp
    simp [parentsOf] at hp
  | add g ps hB hps ih =>
    intro i p hp
    have hlen : (addNode g ps).length = g.length + 1 := by simp [addNode]
    rcases lt_trichotomy i g.length with hi | hi | hi
    · rw [parentsOf_addNode_lt g ps i hi] at hp
      have := ih i p hp
      omega
    · subst hi
      rw [parentsOf_addNode_self g ps] at hp
      have := hps p hp
      omega
    · have hnone : parentsOf (addNode g ps) i = [] := by
        unfold parentsOf
        rw [List.getElem?_eq_none]
        omega
      rw [hnone] at hp
      simp at hp

/-- C4: in every constructed graph, the stored ancestor set of node `i` equals
`{i}` united with the ancestor sets of its parents; a node with no inputs has
ancestor set `{i}`; and constructing further nodes changes neither the
ancestor set nor the parent list of any existing node. -/
theorem C4_ancestor_closure (g : List NodeRec) (h : Built g) :
    (∀ i, i < g.length →
      ancSet g i = insert i ((parentsOf g i).toFinset.biUnion (ancSet g)) ∧
      (parentsOf g i = [] → ancSet g i = {i})) ∧
    (∀ ps i, i < g.length →
      ancSet (addNode g ps) i = ancSet g i ∧
      parentsOf (addNode g ps) i = parentsOf g i) := by
  refine ⟨?_, fun ps i hi => ⟨ancSet_addNode_lt g ps i hi, parentsOf_addNode_lt g ps i hi⟩⟩
  induction h with
  | nil =>
    intro i hi
    simp at hi
  | add g ps hB hps ih =>
    intro i hi
    have hlen : (addNode g ps).length = g.length + 1 := by simp [addNode]
    rcases lt_or_eq_of_le (Nat.lt_succ_iff.mp (hlen ▸ hi)) with hlt | heq
    · have h1 := ancSet_addNode_lt g ps i hlt
      have h2 := parentsOf_addNode_lt g ps i hlt
      have hold := ih i hlt
      constructor
      · rw [h1, h2, hold.1]
        congr 1
        apply Finset.biUnion_congr rfl
        intro p hp
        exact (ancSet_addNode_lt g ps p
          (built_parents_lt hB i p (List.mem_toFinset.mp hp))).symm
      · intro hpe
        rw [h1]
        exact hold.2 (h2 ▸ hpe)
    · subst heq
      constructor
      · unfold ancSet
        rw [ancList_addNode_self g ps, parentsOf_addNode_self g ps]
        simp only [List.toFinset_cons]
        congr 1
        rw [toFinset_flatMap_eq]
        apply Finset.biUnion_congr rfl
        intro p hp
        have hplt := hps p (List.mem_toFinset.mp hp)
        exact (ancSet_addNode_lt g ps p hplt).symm
      · intro hpe
        rw [parentsOf_addNode_self g ps] at hpe
        subst hpe
        unfold ancSet
        rw [ancList_addNode_self g []]
        simp

/-- Witness for C4: the two-node graph where node 1 has parent 0 satisfies the
closure equation at node 1. -/
theorem C4_ancestor_closure_witness :
    ancSet (addNode (addNode [] []) [0]) 1 =
      insert 1 ((parentsOf (addNode (addNode [] []) [0]) 1).toFinset.biUnion
        (ancSet (addNode (addNode [] []) [0]))) :=
  ((C4_ancestor_closure (addNode (addNode [] []) [0])
    (Built.add (addNode [] []) [0] (Built.add [] [] Built.nil (by simp))
      (by simp [addNode]))).1 1 (by simp [addNode])).1

/-- `np.dot(A, B.T)`: entry `(i, j)` is the inner product of row `i` of `A`
with row `j` of `B`. -/
def dotT {n m k : ℕ} (A : Fin n → Fin k → ℚ) (B : Fin m → Fin k → ℚ) :
    Fin n → Fin m → ℚ :=
  fun i j => ∑ l, A i l * B j l

/-- `NoisyGaussianMatrixProduct._sample`: `noise = randn(output_shape) * std`,
`prod = dot(A, B.T)`, then `prod /= float(K)` when `rescale`, and the result is
`prod + noise`.  `g` stands for the `randn` draw and `K = A.output_shape[1]`
is the inner dimension `k`. -/
def ngmp_sample {n m k : ℕ} (rescale : Bool) (A : Fin n → Fin k → ℚ)
    (B : Fin m → Fin k → ℚ) (std : ℚ) (g : Fin n → Fin m → ℚ) :
    Fin n → Fin m → ℚ :=
  let noise := fun i j => g i j * std
  let prod := dotT A B
  let prod2 := if rescale then (fun i j => prod i j / (k : ℚ)) else prod
  fun i j => prod2 i j + noise i j

/-- The mean prediction of `NoisyGaussianMatrixProduct._expected_logp`:
`matmul(mA, mB.T)`, divided elementwise by `K` when `rescale`. -/
def ngmp_expected_result {n m k : ℕ} (rescale : Bool) (mA : Fin n → Fin k → ℚ)
    (mB : Fin m → Fin k → ℚ) : Fin n → Fin m → ℚ :=
  let e := dotT mA mB
  if rescale then (fun i j => e i j / (k : ℚ)) else e

/-- The variance-propagation correction of
`NoisyGaussianMatrixProduct._expected_logp`:
`sum((vA vB.T + vA (mB^2).T + (mA^2) vB.T) / var)`, divided by `K * K` when
`rescale`. -/
def ngmp_correction {n m k : ℕ} (rescale : Bool) (mA vA : Fin n → Fin k → ℚ)
    (mB vB : Fin m → Fin k → ℚ) (var : Fin n → Fin m → ℚ) : ℚ :=
  let vAvB := dotT vA vB
  let vAmB := dotT vA (fun j l => (mB j l) ^ 2)
  let mAvB := dotT (fun i l => (mA i l) ^ 2) vB
  let c := ∑ i, ∑ j, (vAvB i j + vAmB i j + mAvB i j) / var i j
  if rescale then c / ((k : ℚ) * (k : ℚ)) else c

/-- `NoisyGaussianMatrixProduct._expected_logp`: the Gaussian term is the sum
of `gaussian_log_density(q_result.mean, expected_result, var)` over all
entries (`gld` abstracts the external `bf.dists.gaussian_log_density`), and
the result is that term minus half the correction. -/
def ngmp_expected_logp {n m k : ℕ} (gld : ℚ → ℚ → ℚ → ℚ) (rescale : Bool)
    (qmean var : Fin n → Fin m → ℚ) (mA vA : Fin n → Fin k → ℚ)
    (mB vB : Fin m → Fin k → ℚ) : ℚ :=
  (∑ i, ∑ j, gld (qmean i j) (ngmp_expected_result rescale mA mB i j) (var i j)) -
    (1 / 2) * ngmp_correction rescale mA vA mB vB var

/-- C7: with `rescale = true` the sampled value is `dot(A, B.T)` divided
entrywise by the inner dimension `k` with the noise added after the division
(the noise term `g i j * std` is not divided); the `expected_logp` correction
equals the `rescale = false` correction divided by `k²` (by `9` for `k = 3`);
and the Gaussian term of `expected_logp` uses the rescaled mean prediction
`dot(mA, mB.T) / k`. -/
theorem C7_rescale (n m : ℕ) (gld : ℚ → ℚ → ℚ → ℚ) :
    (∀ (k : ℕ) (A : Fin n → Fin k → ℚ) (B : Fin m → Fin k → ℚ) (std : ℚ)
        (g : Fin n → Fin m → ℚ) (i : Fin n) (j : Fin m),
      ngmp_sample true A B std g i j = dotT A B i j / (k : ℚ) + g i j * std ∧
      ngmp_sample false A B std g i j = dotT A B i j + g i j * std) ∧
    (∀ (k : ℕ) (mA vA : Fin n → Fin k → ℚ) (mB vB : Fin m → Fin k → ℚ)
        (var : Fin n → Fin m → ℚ),
      ngmp_correction true mA vA mB vB var =
        ngmp_correction false mA vA mB vB var / ((k : ℚ) * (k : ℚ))) ∧
    (∀ (mA vA : Fin n → Fin 3 → ℚ) (mB vB : Fin m → Fin 3 → ℚ)
        (var : Fin n → Fin m → ℚ),
      ngmp_correction true mA vA mB vB var =
        ngmp_correction false mA vA mB vB var / 9) ∧
    (∀ (k : ℕ) (mA : Fin n → Fin k → ℚ) (mB : Fin m → Fin k → ℚ)
        (i : Fin n) (j : Fin m),
      ngmp_expected_result true mA mB i j = dotT mA mB i j / (k : ℚ)) ∧
    (∀ (k : ℕ) (qmean var : Fin n → Fin m → ℚ) (mA vA : Fin n → Fin k → ℚ)
        (mB vB : Fin m → Fin k → ℚ),
      ngmp_expected_logp gld true qmean var mA vA mB vB =
        (∑ i, ∑ j, gld (qmean i j) (dotT mA mB i j / (k : ℚ)) (var i j)) -
          (1 / 2) * (ngmp_correction false mA vA mB vB var / ((k : ℚ) * (k : ℚ)))) := by
  refine ⟨?_, ?_, ?_, ?_, ?_⟩
  · intro k A B std g i j
    exact ⟨rfl, rfl⟩
  · intro k mA vA mB vB var
    rfl
  · intro mA vA mB vB var
    have h9 : ((3 : ℕ) : ℚ) * ((3 : ℕ) : ℚ) = 9 := by norm_num
    calc ngmp_correction true mA vA mB vB var
        = ngmp_correction false mA vA mB vB var / (((3 : ℕ) : ℚ) * ((3 : ℕ) : ℚ)) := rfl
      _ = ngmp_correction false mA vA mB vB var / 9 := by rw [h9]
  · intro k mA mB i j
    rfl
  · intro k qmean var mA vA mB vB
    rfl

/-- Element dtypes of arrays and nodes. -/
inductive DType where
  | float32
  | float64
deriving DecidableEq, Repr

/-- A raw numpy array value: its shape and dtype. -/
structure NdArray where
  shape : Shape
  dtype : DType
deriving DecidableEq, Repr

/-- A constructed node as seen during wiring: its `output_shape`, `dtype`, and,
when it is an auto-wrapped fixed `FlatDistribution`, the wrapped constant. -/
structure CNode where
  output_shape : Shape
  dtype : DType
  flatValue : Option NdArray
deriving DecidableEq, Repr

/-- A keyword argument for a declared input: an existing node, a raw array,
or `None`. -/
inductive InVal where
  | node (n : CNode)
  | raw (a : NdArray)
  | omitted
deriving DecidableEq, Repr

/-- `FlatDistribution(value, fixed=True)`: a node whose `output_shape` is
`value.shape`, whose dtype is `value.dtype`, and which records the wrapped
constant (an `ObservedQDistribution` is attached to it). -/
def flatWrap (a : NdArray) : CNode := ⟨a.shape, a.dtype, some a⟩

/-- `ConditionalDistribution.__init__` input resolution: a node is stored as
is, a raw value is wrapped in a fresh fixed `FlatDistribution`, `None` is
skipped. -/
def resolveIn (v : InVal) : Option CNode :=
  match v with
  | .node n => some n
  | .raw a => some (flatWrap a)
  | .omitted => none

/-- Fetches a resolved input for the `_compute_shape` / `_compute_dtype`
call; an omitted input makes that call fail with a missing-argument error. -/
def req (v : InVal) : Except String CNode :=
  match resolveIn v with
  | some c => Except.ok c
  | none => Except.error "TypeError: missing required argument"

/-- The subclass constructors read `.output_shape` directly off the keyword
argument (e.g. `self.K = A.output_shape[1]`); only a node has that attribute,
a raw array or `None` raises `AttributeError`. -/
def attrOutputShape (v : InVal) : Except String Shape :=
  match v with
  | .node n => Except.ok n.output_shape
  | _ => Except.error "AttributeError: object has no attribute output_shape"

/-- The base state built by `ConditionalDistribution.__init__`: the
`input_nodes` map and the inferred `output_shape` and `dtype`. -/
structure BaseNode where
  input_nodes : List (String × CNode)
  output_shape : Shape
  dtype : DType
deriving DecidableEq, Repr

/-- `ConditionalDistribution.__init__` for a node type with three declared
inputs: resolve each input (wrapping raw values, skipping `None`), then
compute `output_shape` via `_compute_shape` unless given explicitly, then
`dtype` via `_compute_dtype` unless given explicitly. -/
def baseInit3 (n1 n2 n3 : String) (x y z : InVal)
    (oshape : Option Shape) (odtype : Option DType)
    (cshape : Shape → Shape → Shape → Except String Shape)
    (cdtype : DType → DType → DType → Except String DType) :
    Except String BaseNode := do
  let ins := ([(n1, resolveIn x), (n2, resolveIn y), (n3, resolveIn z)]).filterMap
    (fun p => p.2.map (fun c => (p.1, c)))
  let sh ← match oshape with
    | some s => Except.ok s
    | none => do
      let nx ← req x
      let ny ← req y
      let nz ← req z
      cshape nx.output_shape ny.output_shape nz.output_shape
  let dt ← match odtype with
    | some d => Except.ok d
    | none => do
      let nx ← req x
      let ny ← req y
      let nz ← req z
      cdtype nx.dtype ny.dtype nz.dtype
  Except.ok ⟨ins, sh, dt⟩

/-- `ConditionalDistribution.__init__` for a node type with two declared
inputs. -/
def baseInit2 (n1 n2 : String) (x y : InVal)
    (oshape : Option Shape) (odtype : Option DType)
    (cshape : Shape → Shape → Except String Shape)
    (cdtype : DType → DType → Except String DType) :
    Except String BaseNode := do
  let ins := ([(n1, resolveIn x), (n2, resolveIn y)]).filterMap
    (fun p => p.2.map (fun c => (p.1, c)))
  let sh ← match oshape with
    | some s => Except.ok s
    | none => do
      let nx ← req x
      let ny ← req y
      cshape nx.output_shape ny.output_shape
  let dt ← match odtype with
    | some d => Except.ok d
    | none => do
      let nx ← req x
      let ny ← req y
      cdtype nx.dtype ny.dtype
  Except.ok ⟨ins, sh, dt⟩

/-- `NoisyGaussianMatrixProduct._compute_dtype`: asserts `A == B` and
`A == std` dtypes. -/
def ngmp_compute_dtype (A_dtype B_dtype std_dtype : DType) : Except String DType :=
  if A_dtype = B_dtype then
    if A_dtype = std_dtype then Except.ok A_dtype else Except.error "AssertionError"
  else Except.error "AssertionError"

/-- `NoisyCumulativeSum._compute_dtype`: asserts `A == std` dtypes. -/
def ncs_compute_dtype (A_dtype std_dtype : DType) : Except String DType :=
  if A_dtype = std_dtype then Except.ok A_dtype else Except.error "AssertionError"

/-- `NoisyLatentFeatures._compute_dtype`: asserts `G == std` dtypes. -/
def nlf_compute_dtype (B_dtype G_dtype std_dtype : DType) : Except String DType :=
  if G_dtype = std_dtype then Except.ok G_dtype else Except.error "AssertionError"

/-- `GMMClustering._compute_dtype`: asserts `centers == std` dtypes. -/
def gmm_compute_dtype (weights_dtype centers_dtype std_dtype : DType) : Except String DType :=
  if centers_dtype = std_dtype then Except.ok centers_dtype
  else Except.error "AssertionError"

/-- `NoisyGaussianMatrixProduct.__init__`: runs the base constructor, then
sets `self.K = A.output_shape[1]` — reading the attribute off the original
keyword argument `A`, not off the wrapped node. -/
def ngmpInit (A B std : InVal) (oshape : Option Shape) (odtype : Option DType) :
    Except String (BaseNode × Nat) := do
  let base ← baseInit3 "A" "B" "std" A B std oshape odtype
    ngmp_compute_shape ngmp_compute_dtype
  let ashape ← attrOutputShape A
  let K ← match ashape[1]? with
    | some v => Except.ok v
    | none => Except.error "IndexError"
  Except.ok (base, K)

/-- `NoisyLatentFeatures.__init__`: base constructor, then
`self.K = B.output_shape[1]` off the original argument `B`. -/
def nlfInit (B G std : InVal) (oshape : Option Shape) (odtype : Option DType) :
    Except String (BaseNode × Nat) := do
  let base ← baseInit3 "B" "G" "std" B G std oshape odtype
    nlf_compute_shape nlf_compute_dtype
  let bshape ← attrOutputShape B
  let K ← match bshape[1]? with
    | some v => Except.ok v
    | none => Except.error "IndexError"
  Except.ok (base, K)

/-- `GMMClustering.__init__`: base constructor, then
`self.n_clusters = centers.output_shape[0]` off the original argument. -/
def gmmInit (weights centers std : InVal) (oshape : Option Shape) (odtype : Option DType) :
    Except String (BaseNode × Nat) := do
  let base ← baseInit3 "weights" "centers" "std" weights centers std oshape odtype
    gmm_compute_shape gmm_compute_dtype
  let cshape ← attrOutputShape centers
  let K ← match cshape[0]? with
    | some v => Except.ok v
    | none => Except.error "IndexError"
  Except.ok (base, K)

/-- `NoisyCumulativeSum.__init__`: just the base constructor. -/
def ncsInit (A std : InVal) (oshape : Option Shape) (odtype : Option DType) :
    Except String BaseNode :=
  baseInit2 "A" "std" A std oshape odtype ncs_compute_shape ncs_compute_dtype

/-- `true` exactly on a raised exception. -/
def isErr {α : Type} : Except String α → Bool
  | .error _ => true
  | .ok _ => false

/-- C2 (code bug): the base `__init__` auto-wraps a raw array for `A` into a
fixed `FlatDistribution` stored in `input_nodes` — but
`NoisyGaussianMatrixProduct.__init__` then reads `A.output_shape` off the raw
array and raises `AttributeError`, so the construction fails; likewise
`NoisyLatentFeatures` with a raw `B` and `GMMClustering` with raw `centers`.
`NoisyCumulativeSum`, whose constructor reads no attribute off its arguments,
does construct from a raw `A`, and `NoisyGaussianMatrixProduct` still accepts
a raw `std`. -/
theorem C2_raw_input_wrapping :
    baseInit3 "A" "B" "std" (.raw ⟨[2, 2], .float32⟩) (.node ⟨[2, 2], .float32, none⟩)
        (.raw ⟨[], .float32⟩) none none ngmp_compute_shape ngmp_compute_dtype =
      Except.ok ⟨[("A", flatWrap ⟨[2, 2], .float32⟩), ("B", ⟨[2, 2], .float32, none⟩),
        ("std", flatWrap ⟨[], .float32⟩)], [2, 2], .float32⟩ ∧
    ngmpInit (.raw ⟨[2, 2], .float32⟩) (.node ⟨[2, 2], .float32, none⟩)
        (.raw ⟨[], .float32⟩) none none =
      Except.error "AttributeError: object has no attribute output_shape" ∧
    nlfInit (.raw ⟨[2, 2], .float32⟩) (.node ⟨[2, 3], .float32, none⟩)
        (.raw ⟨[], .float32⟩) none none =
      Except.error "AttributeError: object has no attribute output_shape" ∧
    gmmInit (.node ⟨[3], .float32, none⟩) (.raw ⟨[3, 2], .float32⟩)
        (.raw ⟨[], .float32⟩) (some [5, 2]) none =
      Except.error "AttributeError: object has no attribute output_shape" ∧
    ncsInit (.raw ⟨[6, 2], .float32⟩) (.raw ⟨[], .float32⟩) none none =
      Except.ok ⟨[("A", flatWrap ⟨[6, 2], .float32⟩), ("std", flatWrap ⟨[], .float32⟩)],
        [6, 2], .float32⟩ ∧
    ngmpInit (.node ⟨[2, 2], .float32, none⟩) (.node ⟨[2, 2], .float32, none⟩)
        (.raw ⟨[], .float32⟩) none none =
      Except.ok (⟨[("A", ⟨[2, 2], .float32, none⟩), ("B", ⟨[2, 2], .float32, none⟩),
        ("std", flatWrap ⟨[], .float32⟩)], [2, 2], .float32⟩, 2) :=
  ⟨rfl, rfl, rfl, rfl, rfl, rfl⟩

/-- C9: `GMMClustering._compute_shape` fails on every input; constructing a
`GMMClustering` without an explicit `output_shape` therefore fails for every
combination of inputs; supplying `output_shape` explicitly bypasses
`_compute_shape` entirely (the result is the same for every possible shape
function) and the construction succeeds. -/
theorem C9_gmm_shape_required :
    (∀ ws cs ss, gmm_compute_shape ws cs ss =
      Except.error "cannot infer shape for GMMClustering, must specify number of cluster draws") ∧
    (∀ w c s odt, isErr (gmmInit w c s none odt) = true) ∧
    (∀ w c s sh odt cs1 cs2,
      baseInit3 "weights" "centers" "std" w c s (some sh) odt cs1 gmm_compute_dtype =
      baseInit3 "weights" "centers" "std" w c s (some sh) odt cs2 gmm_compute_dtype) ∧
    (∀ (w c s : CNode) (sh : Shape) (kk : Nat),
      c.dtype = s.dtype → c.output_shape[0]? = some kk →
      gmmInit (.node w) (.node c) (.node s) (some sh) none =
        Except.ok (⟨[("weights", w), ("centers", c), ("std", s)], sh, c.dtype⟩, kk)) := by
  refine ⟨fun ws cs ss => rfl, ?_, fun w c s sh odt cs1 cs2 => rfl, ?_⟩
  · intro w c s odt
    cases w <;> cases c <;> cases s <;> cases odt <;> rfl
  · intro w c s sh kk hd hk
    obtain ⟨csh, cdt, cfv⟩ := c
    obtain ⟨ssh, sdt, sfv⟩ := s
    simp only [CNode.dtype] at hd
    simp only [CNode.output_shape] at hk
    subst hd
    simp [gmmInit, baseInit3, resolveIn, req, attrOutputShape, gmm_compute_dtype, hk,
      Bind.bind, Except.instMonad, Except.bind]

/-- Witness for C9 at a concrete successful construction with explicit
output shape. -/
theorem C9_gmm_shape_required_witness :
    gmmInit (.node ⟨[3], .float32, none⟩) (.node ⟨[3, 2], .float32, none⟩)
        (.node ⟨[], .float32, none⟩) (some [5, 2]) none =
      Except.ok (⟨[("weights", ⟨[3], .float32, none⟩), ("centers", ⟨[3, 2], .float32, none⟩),
        ("std", ⟨[], .float32, none⟩)], [5, 2], .float32⟩, 3) :=
  C9_gmm_shape_required.2.2.2 ⟨[3], .float32, none⟩ ⟨[3, 2], .float32, none⟩
    ⟨[], .float32, none⟩ [5, 2] 3 rfl rfl
